import Mathlib

set_option maxHeartbeats 1000000
set_option maxRecDepth 4000

/- Shallow embedding of the core of the macro_magic repository
   (file src/core/src/lib.rs).  Rust strings are modelled as `List Char`.
   Rust character predicates used by the code are translated exactly on the
   characters the code can observe; comments on each definition record the
   correspondence with the source. -/

/-- Mirrors Rust `char::is_whitespace`: the 25 Unicode `White_Space` code
points, written via `Char.toNat`.  Source use sites: `to_snake_case`
(src/core/src/lib.rs lines 337 and 340). -/
def rust_is_whitespace (c : Char) : Bool :=
  decide (c.toNat = 0x09 ∨ c.toNat = 0x0A ∨ c.toNat = 0x0B ∨ c.toNat = 0x0C ∨
    c.toNat = 0x0D ∨ c.toNat = 0x20 ∨ c.toNat = 0x85 ∨ c.toNat = 0xA0 ∨
    c.toNat = 0x1680 ∨ (0x2000 ≤ c.toNat ∧ c.toNat ≤ 0x200A) ∨
    c.toNat = 0x2028 ∨ c.toNat = 0x2029 ∨ c.toNat = 0x202F ∨
    c.toNat = 0x205F ∨ c.toNat = 0x3000)

/-- Mirrors Rust `char::is_lowercase` on every character `to_snake_case` can
feed it.  Rust uses the Unicode `Lowercase` property; the code consults this
predicate only (a) on the first character of the input, where the stored value
is provably never read before being overwritten (a separator underscore also
requires `prev_whitespace == false`, which first becomes true only in the
branch that overwrites `prev_lower`), and (b) on kept characters, which are
ASCII alphanumeric or whitespace, where Unicode lowercase coincides with the
ASCII range a-z used here (97 to 122). -/
def rust_is_lowercase (c : Char) : Bool :=
  decide (97 ≤ c.toNat ∧ c.toNat ≤ 122)

/-- Mirrors Rust `char::is_ascii_alphanumeric`: 0-9, A-Z, a-z. -/
def rust_is_ascii_alphanumeric (c : Char) : Bool :=
  decide ((48 ≤ c.toNat ∧ c.toNat ≤ 57) ∨ (65 ≤ c.toNat ∧ c.toNat ≤ 90) ∨
    (97 ≤ c.toNat ∧ c.toNat ≤ 122))

/-- Mirrors Rust `char::to_ascii_lowercase`: shifts A-Z (65 to 90) down by 32,
leaves every other character unchanged. -/
def rust_to_ascii_lowercase (c : Char) : Char :=
  if 65 ≤ c.toNat ∧ c.toNat ≤ 90 then Char.ofNat (c.toNat + 32) else c

/-- The three mutable loop variables of `to_snake_case`
(src/core/src/lib.rs lines 327 to 329): `prev_lower`, `prev_whitespace`,
`first`. -/
structure SnakeState where
  prevLower : Bool
  prevWs : Bool
  first : Bool
deriving DecidableEq

/-- One iteration of the `for c in input.chars()` loop of `to_snake_case`
(src/core/src/lib.rs lines 331 to 359), returning the updated state and the
characters pushed to `output` during this iteration.
Branches, in source order:
1. `c == '_'`: push a literal underscore, set `prev_whitespace`, `continue`
   (so `first` is NOT cleared);
2. the drop filter: characters neither ASCII alphanumeric nor underscore nor
   whitespace are skipped via `continue` (again `first` survives); `c` is
   already known not to be an underscore here;
3. the condition `!first && c.is_whitespace() || c == '_'` parses in Rust as
   `(!first && c.is_whitespace()) || c == '_'` and the second disjunct is
   unreachable after branch 1, leaving `!first && c.is_whitespace()`: push a
   single separator underscore only when `prev_whitespace` was false;
4. otherwise: push a separator underscore when the case-class test holds and
   neither `first` nor `prev_whitespace`, then push the lowercased character.
Branches 3 and 4 fall through to `first = false`. -/
def snake_step (st : SnakeState) (c : Char) : SnakeState × List Char :=
  if c = '_' then
    ({ st with prevWs := true }, ['_'])
  else if rust_is_ascii_alphanumeric c = false ∧ rust_is_whitespace c = false then
    (st, [])
  else if st.first = false ∧ rust_is_whitespace c = true then
    if st.prevWs = false then
      ({ st with prevWs := true, first := false }, ['_'])
    else
      ({ st with prevWs := true, first := false }, [])
  else
    let currentLower := rust_is_lowercase c
    let boundary := ((st.prevLower ≠ currentLower ∧ st.prevLower = true) ∨
        (st.prevLower = currentLower ∧ st.prevLower = false)) ∧
      st.first = false ∧ st.prevWs = false
    (⟨currentLower, false, false⟩,
      if boundary then ['_', rust_to_ascii_lowercase c]
      else [rust_to_ascii_lowercase c])

/-- Folds `snake_step` over the input characters, accumulating the output. -/
def process_chars (st : SnakeState) : List Char → SnakeState × List Char
  | [] => (st, [])
  | c :: rest =>
    ((process_chars (snake_step st c).1 rest).1,
      (snake_step st c).2 ++ (process_chars (snake_step st c).1 rest).2)

/-- The function `to_snake_case` of src/core/src/lib.rs lines 322 to 361:
empty input is returned unchanged, otherwise `prev_lower` is initialised from
the first character and the loop runs over all characters. -/
def to_snake_case (s : List Char) : List Char :=
  match s with
  | [] => []
  | c :: _ => (process_chars ⟨rust_is_lowercase c, true, true⟩ s).2

/-- Fuel-driven model of Rust `str::replace`: repeatedly rewrite the leftmost
occurrence of `pat` to `rep` and continue after the replacement
(non-overlapping, left to right).  Each step consumes at least one input
character, so fuel `s.length` (as supplied by `rust_replace`) always suffices
and the fuel-exhausted equation is never reached on the arguments used here;
fuel keeps the recursion structural so that the kernel can evaluate it. -/
def replace_go (pat rep : List Char) : Nat → List Char → List Char
  | 0, s => s
  | _ + 1, [] => []
  | fuel + 1, c :: rest =>
    if pat.isPrefixOf (c :: rest) then
      rep ++ replace_go pat rep fuel (List.drop (pat.length - 1) rest)
    else
      c :: replace_go pat rep fuel rest

/-- Rust `s.replace(pat, rep)` for the non-empty patterns used by the codec. -/
def rust_replace (pat rep s : List Char) : List Char :=
  replace_go pat rep s.length s

/-- The function `escape_extra` of src/core/src/lib.rs lines 367 to 372:
first every backslash becomes two backslashes, then every occurrence of the
delimiter `~~` becomes backslash-tilde-backslash-tilde. -/
def escape_extra (s : List Char) : List Char :=
  rust_replace ['~', '~'] ['\\', '~', '\\', '~']
    (rust_replace ['\\'] ['\\', '\\'] s)

/-- The function `unescape_extra` of src/core/src/lib.rs lines 377 to 382:
first every pair of backslashes becomes one backslash, then every occurrence
of backslash-tilde-backslash-tilde becomes `~~`. -/
def unescape_extra (s : List Char) : List Char :=
  rust_replace ['\\', '~', '\\', '~'] ['~', '~']
    (rust_replace ['\\', '\\'] ['\\'] s)

/-- Boolean substring test: does `pat` occur contiguously inside `s`? -/
def has_sub (pat : List Char) : List Char → Bool
  | [] => pat.isPrefixOf ([] : List Char)
  | c :: rest => pat.isPrefixOf (c :: rest) || has_sub pat rest

/-- Fuel-driven model of Rust `str::split` with a string pattern: fields are
the maximal pieces between non-overlapping leftmost matches, including empty
fields at matches that touch or the end of the string.  As in `replace_go`,
fuel `s.length` always suffices. -/
def split_go (pat : List Char) : Nat → List Char → List Char → List (List Char)
  | 0, acc, s => [acc.reverse ++ s]
  | _ + 1, acc, [] => [acc.reverse]
  | fuel + 1, acc, c :: rest =>
    if pat.isPrefixOf (c :: rest) then
      acc.reverse :: split_go pat fuel [] (List.drop (pat.length - 1) rest)
    else
      split_go pat fuel (c :: acc) rest

/-- Rust `s.split(pat)` collected into a list of fields. -/
def rust_split (pat s : List Char) : List (List Char) :=
  split_go pat s.length [] s

/-- The combined payload string built by the outer wrapper emitted by
`import_tokens_attr_internal` (src/core/src/lib.rs lines 750 to 755):
`format!("{}~~{}~~{}", escape_extra(d), escape_extra(p), escape_extra(c))`
with `d` the attached declaration text, `p` the extracted path text and `c`
the custom-parsed payload text. -/
def build_combined (d p c : List Char) : List Char :=
  escape_extra d ++ ['~', '~'] ++ escape_extra p ++ ['~', '~'] ++ escape_extra c

/-- Output tokens of the code generators: identifiers, punctuation and string
literals.  Items (opaque declaration syntax) are modelled as token lists. -/
inductive Tok where
  | id (s : String)
  | sym (s : String)
  | lit (s : String)
deriving DecidableEq

/-- Renders a simple path (list of segment identifiers) as tokens with `::`
separators, as `quote!` does for a `syn::Path` of plain segments. -/
def render_path : List String → List Tok
  | [] => []
  | [s] => [Tok.id s]
  | s :: rest => Tok.id s :: Tok.sym "::" :: render_path rest

/-- The default value of `MACRO_MAGIC_ROOT` (src/core/src/lib.rs line 27 and
`macro_magic_root`, lines 296 to 303): the path `::macro_magic`, modelled
without the leading `::`. -/
def mm_root_model : List String := ["macro_magic"]

/-- The function `private_path` of src/core/src/lib.rs lines 306 to 310:
`#root::__private::#subpath`. -/
def private_path_model (sub : String) : List String :=
  mm_root_model ++ ["__private", sub]

/-- The function the source calls `export_tokens_macro_ident`
(src/core/src/lib.rs lines 395 to 399): flatten the identifier with
`to_snake_case` (`flatten_ident`, lines 387 to 389) and prepend the reserved
tag `__export_tokens_tt_`. -/
def export_tokens_slot_ident (ident : String) : String :=
  "__export_tokens_tt_" ++ String.mk (to_snake_case ident.data)

/-- Last segment of a path, as `Path::segments.last()` in the source. -/
def last_seg : List String → Option String
  | [] => none
  | [s] => some s
  | _ :: rest => last_seg rest

/-- The slot-path resolution shared by `import_tokens_internal`
(src/core/src/lib.rs lines 529 to 538) and `forward_tokens_internal`
(lines 568 to 577): take the LAST segment, turn it into the registry-slot
identifier, and qualify it with the FIRST segment only when the source path
has more than one segment.  The `none` arm mirrors the
`unreachable!("must have at least one segment")` guard. -/
def resolve_slot_path (segs : List String) : List String :=
  match last_seg segs with
  | none => []
  | some lastIdent =>
    if 1 < segs.length then
      match segs with
      | [] => [export_tokens_slot_ident lastIdent]
      | first :: _ => [first, export_tokens_slot_ident lastIdent]
    else
      [export_tokens_slot_ident lastIdent]

/-- Parsed arguments of `import_tokens_internal`: the `let` binding name and
the source path (struct `ImportTokensArgs`, src/core/src/lib.rs
lines 91 to 97). -/
structure ImportArgsM where
  tokensVarIdent : String
  sourcePath : List String

/-- The function `import_tokens_internal` of src/core/src/lib.rs lines 527 to
544 after successful parsing: emits the invocation of the resolved slot
path with the binding identifier and the inner continuation path
`private_path(import_tokens_inner)` as arguments (the built-in
inner-import continuation). -/
def import_tokens_internal (args : ImportArgsM) : List Tok :=
  render_path (resolve_slot_path args.sourcePath) ++
  [Tok.sym "!", Tok.sym "\x7b", Tok.id args.tokensVarIdent, Tok.sym ","] ++
  render_path (private_path_model "import_tokens_inner") ++ [Tok.sym "\x7d"]

/-- Parsed arguments of `forward_tokens_internal` (struct `ForwardTokensArgs`,
src/core/src/lib.rs lines 41 to 57). -/
structure ForwardArgsM where
  source : List String
  target : List String
  mmPath : Option (List String)
  extra : Option String

/-- The function `forward_tokens_internal` of src/core/src/lib.rs lines 562
to 592 after successful parsing: same slot resolution as the import path,
caller-chosen continuation target, continuation routed through
`#mm_path::__private::forward_tokens_inner`, and the optional extra payload
appended as a trailing literal argument. -/
def forward_tokens_internal (args : ForwardArgsM) : List Tok :=
  let mmp := args.mmPath.getD mm_root_model
  match args.extra with
  | some e =>
    render_path (resolve_slot_path args.source) ++ [Tok.sym "!", Tok.sym "\x7b"] ++
    render_path args.target ++ [Tok.sym ","] ++
    render_path (mmp ++ ["__private", "forward_tokens_inner"]) ++
    [Tok.sym ",", Tok.lit e, Tok.sym "\x7d"]
  | none =>
    render_path (resolve_slot_path args.source) ++ [Tok.sym "!", Tok.sym "\x7b"] ++
    render_path args.target ++ [Tok.sym ","] ++
    render_path (mmp ++ ["__private", "forward_tokens_inner"]) ++ [Tok.sym "\x7d"]

/-- The function `forward_tokens_inner_internal` of src/core/src/lib.rs
lines 595 to 611 after successful parsing of `ForwardedTokens`
(target path, item, optional extra literal): `combined_tokens` is the item
followed by a comma and the extra literal when extra is present, the item
alone otherwise, and the output is `#target_path! { #combined_tokens }`. -/
def forward_tokens_inner_internal (targetPath : List String) (item : List Tok)
    (extra : Option String) : List Tok :=
  render_path targetPath ++ [Tok.sym "!", Tok.sym "\x7b"] ++
  (match extra with
   | some e => item ++ [Tok.sym ",", Tok.lit e]
   | none => item) ++ [Tok.sym "\x7d"]

/-- The `syn::Item` variants distinguished by `export_tokens_internal`
(src/core/src/lib.rs lines 418 to 436), each with the identifier the source
extracts from it.  `iMacDef` models `Item::Macro`, whose name is optional in
syn; the four nameless variants are `Item::Impl`, `Item::Use`,
`Item::ForeignMod` and `Item::Verbatim` (the catch-all `_ => None` arm). -/
inductive RustItem where
  | iConst (ident : String)
  | iEnum (ident : String)
  | iExternCrate (ident : String)
  | iFn (ident : String)
  | iMacDef (ident : Option String)
  | iMod (ident : String)
  | iStatic (ident : String)
  | iStruct (ident : String)
  | iTrait (ident : String)
  | iTraitAlias (ident : String)
  | iType (ident : String)
  | iUnion (ident : String)
  | iImpl
  | iUse
  | iForeignMod
  | iVerbatim
deriving DecidableEq

/-- The intrinsic identifier of an item, following the `match item` of
src/core/src/lib.rs lines 418 to 436 arm by arm. -/
def item_ident : RustItem → Option String
  | .iConst i => some i
  | .iEnum i => some i
  | .iExternCrate i => some i
  | .iFn i => some i
  | .iMacDef oi => oi
  | .iMod i => some i
  | .iStatic i => some i
  | .iStruct i => some i
  | .iTrait i => some i
  | .iTraitAlias i => some i
  | .iType i => some i
  | .iUnion i => some i
  | .iImpl => none
  | .iUse => none
  | .iForeignMod => none
  | .iVerbatim => none

/-- Rust `parse2::<Ident>` on the attribute token stream: succeeds exactly on
a single bare identifier token (a path such as `some::path` or an identifier
with generic parameters such as `Something<T>` is more than one token and
fails, as do empty tokens). -/
def parse_ident_tok : List Tok → Option String
  | [Tok.id s] => some s
  | _ => none

/-- What claims C5 needs of the generated code of `export_tokens_internal`
(src/core/src/lib.rs lines 447 to 478): the name of the emitted registry-slot
declaration and whether the original item is re-emitted. -/
structure ExportOutput where
  slotIdent : String
  emitOriginal : Bool
deriving DecidableEq

/-- The function `export_tokens_internal` of src/core/src/lib.rs lines 411 to
479, for an already-parsed item.  Name selection (lines 437 to 446): when the
item has an intrinsic identifier, empty attribute tokens (`parse2::<Nothing>`
succeeds) select the intrinsic name and otherwise the attribute must parse as
a bare identifier; when the item has no intrinsic identifier the attribute
must parse as a bare identifier.  On success the emitted slot is named by
`export_tokens_slot_ident` applied to the chosen name. -/
def export_tokens_internal (attr : List Tok) (item : RustItem) (emit : Bool) :
    Except String ExportOutput :=
  match item_ident item with
  | some ident =>
    if attr = [] then
      Except.ok ⟨export_tokens_slot_ident ident, emit⟩
    else
      match parse_ident_tok attr with
      | some o => Except.ok ⟨export_tokens_slot_ident o, emit⟩
      | none => Except.error "attribute argument must be a bare identifier"
  | none =>
    match parse_ident_tok attr with
    | some o => Except.ok ⟨export_tokens_slot_ident o, emit⟩
    | none => Except.error "this item requires an identifier argument"

/-- Discriminates the error case of an `Except` result. -/
def exc_is_err {ε α : Type} : Except ε α → Bool
  | .error _ => true
  | .ok _ => false

/-- An attribute on a proc-macro function definition: its path and optional
argument tokens (modelled as a path, which is all the source inspects). -/
structure AttrM where
  path : List String
  argPath : Option (List String)
deriving DecidableEq

/-- A parsed proc-macro function definition, reduced to the attribute list
that `with_custom_parsing_internal` inspects. -/
structure ProcFnM where
  attrs : List AttrM
deriving DecidableEq

/-- The function `with_custom_parsing_internal` of src/core/src/lib.rs
lines 625 to 682, for a definition that already passed
`parse_proc_macro_variant` (public attribute proc macro): first require some
attribute whose path ends in `import_tokens_attr_name`; then the duplicate
guard of lines 653 to 670, which errors when some attribute path ends in the
literal string "with_custom_parsing_internal" (exactly as written at line
660); then the attribute argument must be a path; finally the original
definition is re-emitted with `#[with_custom_parsing(#custom_path)]`
appended. -/
def with_custom_parsing_internal (attrPath : Option (List String))
    (fn : ProcFnM) (import_tokens_attr_name : String) : Except String ProcFnM :=
  if (fn.attrs.find? (fun a => a.path.getLast? == some import_tokens_attr_name)).isNone then
    Except.error "can only be attached to an attribute proc macro marked with the given attribute"
  else if (fn.attrs.find? (fun a => a.path.getLast? == some "with_custom_parsing_internal")).isSome then
    Except.error "only one instance of with_custom_parsing can be attached at a time"
  else
    match attrPath with
    | none => Except.error "expected a path"
    | some p => Except.ok ⟨fn.attrs ++ [⟨["with_custom_parsing"], some p⟩]⟩

/- Helper lemmas. -/

lemma ws_ne_underscore {c : Char} (h : rust_is_whitespace c = true) : c ≠ '_' := by
  intro he
  subst he
  exact absurd h (by decide)

lemma ws_not_lower {c : Char} (h : rust_is_whitespace c = true) :
    rust_is_lowercase c = false := by
  have hP := of_decide_eq_true h
  apply decide_eq_false
  intro hQ
  omega

lemma ws_to_ascii_lower {c : Char} (h : rust_is_whitespace c = true) :
    rust_to_ascii_lowercase c = c := by
  have hP := of_decide_eq_true h
  unfold rust_to_ascii_lowercase
  rw [if_neg (by omega)]

lemma snake_step_ws_first {c : Char} (h : rust_is_whitespace c = true)
    (pl pw : Bool) : snake_step ⟨pl, pw, true⟩ c = (⟨false, false, false⟩, [c]) := by
  simp [snake_step, ws_ne_underscore h, h, ws_not_lower h, ws_to_ascii_lower h]

lemma snake_step_ws_emit {c : Char} (h : rust_is_whitespace c = true)
    (pl : Bool) : snake_step ⟨pl, false, false⟩ c = (⟨pl, true, false⟩, ['_']) := by
  simp [snake_step, ws_ne_underscore h, h]

lemma snake_step_ws_idle {c : Char} (h : rust_is_whitespace c = true)
    (pl : Bool) : snake_step ⟨pl, true, false⟩ c = (⟨pl, true, false⟩, []) := by
  simp [snake_step, ws_ne_underscore h, h]

lemma process_chars_cons (st : SnakeState) (c : Char) (l : List Char) :
    process_chars st (c :: l) =
      ((process_chars (snake_step st c).1 l).1,
        (snake_step st c).2 ++ (process_chars (snake_step st c).1 l).2) := rfl

lemma ws_run_idle {c : Char} (h : rust_is_whitespace c = true) (pl : Bool) :
    ∀ m : Nat, process_chars ⟨pl, true, false⟩ (List.replicate m c) =
      (⟨pl, true, false⟩, []) := by
  intro m
  induction m with
  | zero => rfl
  | succ k ih =>
    rw [List.replicate_succ]
    simp [process_chars, snake_step_ws_idle h, ih]

lemma ws_run_from_emitted {c : Char} (h : rust_is_whitespace c = true)
    (pl : Bool) (k : Nat) :
    process_chars ⟨pl, false, false⟩ (List.replicate (k + 1) c) =
      (⟨pl, true, false⟩, ['_']) := by
  rw [List.replicate_succ]
  simp [process_chars, snake_step_ws_emit h, ws_run_idle h]

lemma underscore_run : ∀ (n : Nat) (st : SnakeState),
    process_chars st (List.replicate n '_') =
      ((if n = 0 then st else { st with prevWs := true }), List.replicate n '_') := by
  intro n
  induction n with
  | zero => intro st; simp [process_chars]
  | succ k ih =>
    intro st
    obtain ⟨pl, pw, fi⟩ := st
    rw [List.replicate_succ]
    have hstep : snake_step ⟨pl, pw, fi⟩ '_' = (⟨pl, true, fi⟩, ['_']) := by
      simp [snake_step]
    by_cases hk : k = 0 <;>
      simp [process_chars, hstep, ih, hk, List.replicate_succ]

lemma process_chars_append : ∀ (l1 l2 : List Char) (st : SnakeState),
    process_chars st (l1 ++ l2) =
      ((process_chars (process_chars st l1).1 l2).1,
        (process_chars st l1).2 ++ (process_chars (process_chars st l1).1 l2).2) := by
  intro l1
  induction l1 with
  | nil => intro l2 st; simp [process_chars]
  | cons c t ih => intro l2 st; simp [process_chars, ih, List.append_assoc]

lemma has_sub_cons_of_not_mem (a : Char) (p : List Char) :
    ∀ s : List Char, a ∉ s → has_sub (a :: p) s = false := by
  intro s
  induction s with
  | nil => intro _; rfl
  | cons c rest ih =>
    intro h
    have hne : a ≠ c := by
      intro he
      exact h (by rw [he]; exact List.mem_cons_self c rest)
    have hrest : a ∉ rest := fun hr => h (List.mem_cons_of_mem c hr)
    simp [has_sub, List.isPrefixOf, hne, ih hrest]

lemma replace_go_no_sub (pat rep : List Char) :
    ∀ (fuel : Nat) (s : List Char), has_sub pat s = false →
      replace_go pat rep fuel s = s := by
  intro fuel
  induction fuel with
  | zero => intro s _; rfl
  | succ k ih =>
    intro s h
    cases s with
    | nil => rfl
    | cons c rest =>
      simp only [has_sub, Bool.or_eq_false_iff] at h
      simp [replace_go, h.1, ih rest h.2]

lemma rust_replace_no_sub (pat rep s : List Char) (h : has_sub pat s = false) :
    rust_replace pat rep s = s :=
  replace_go_no_sub pat rep s.length s h

lemma last_seg_append_single : ∀ (l : List String) (a : String),
    last_seg (l ++ [a]) = some a := by
  intro l a
  induction l with
  | nil => rfl
  | cons x xs ih =>
    cases xs with
    | nil => rfl
    | cons y ys => exact ih

lemma resolve_slot_path_crate_qualified (p1 : String) (ps : List String)
    (name : String) :
    resolve_slot_path ((p1 :: ps) ++ [name]) =
      [p1, export_tokens_slot_ident name] := by
  have hl := last_seg_append_single (p1 :: ps) name
  have hlen : 1 < ((p1 :: ps) ++ [name]).length := by
    simp only [List.length_append, List.length_cons]
    omega
  unfold resolve_slot_path
  rw [hl]
  simp [hlen]

lemma parse_ident_tok_eq_some {attr : List Tok} {o : String} :
    parse_ident_tok attr = some o ↔ attr = [Tok.id o] := by
  cases attr with
  | nil => simp [parse_ident_tok]
  | cons t rest =>
    cases t with
    | id s =>
      cases rest with
      | nil => simp [parse_ident_tok]
      | cons t2 r2 => simp [parse_ident_tok]
    | sym s => cases rest <;> simp [parse_ident_tok]
    | lit s => cases rest <;> simp [parse_ident_tok]

/- Claim theorems. -/

/-- Claim C1 (refuted at a concrete input): the codec round trip is claimed
to satisfy `unescape_extra (escape_extra s) = s` for every string; at the
four-character input backslash tilde backslash tilde the round trip instead
returns the two-character string tilde tilde, because `unescape_extra`
collapses doubled backslashes first and the result is then misread as an
escaped delimiter. -/
theorem c1_unescape_escape_roundtrip_fails :
    unescape_extra (escape_extra ['\\', '~', '\\', '~']) = ['~', '~'] ∧
    (['~', '~'] : List Char) ≠ ['\\', '~', '\\', '~'] := by
  decide

/-- Claim C2 (refuted at a concrete input): for the declaration text
`~~~` (with empty path and custom payload fields), `escape_extra` leaves a
literal `~~` in the escaped field, so splitting the combined payload on the
delimiter yields four fields rather than three, and the first three fields,
unescaped, do not reconstruct the original triple. -/
theorem c2_combined_payload_split_fails :
    (rust_split ['~', '~'] (build_combined ['~', '~', '~'] [] [])).length = 4 ∧
    ((rust_split ['~', '~'] (build_combined ['~', '~', '~'] [] [])).map
        unescape_extra).take 3 ≠ [['~', '~', '~'], [], []] := by
  decide

/-- Claim C3 (counterexample): on the input `a__b`, whose interior run of two
underscores is neither leading nor trailing, `to_snake_case` returns `a__b`
unchanged rather than the collapsed `a_b` required by the claim. -/
theorem c3_interior_underscores_not_collapsed :
    to_snake_case "a__b".data = "a__b".data ∧
    to_snake_case "a__b".data ≠ "a_b".data := by
  decide

/-- Claim C3 (amended): underscore runs are never collapsed anywhere in the
input; each input underscore is emitted verbatim as one output underscore
regardless of the loop state, so by the accompanying decomposition of
`process_chars` over list append a run of `n` underscores at any position
contributes exactly `n` underscores to the output, with the run leaving the
state unchanged except for setting the whitespace flag. -/
theorem c3_underscore_runs_verbatim :
    (∀ (st : SnakeState) (n : Nat),
      process_chars st (List.replicate n '_') =
        ((if n = 0 then st else { st with prevWs := true }),
          List.replicate n '_')) ∧
    (∀ (st : SnakeState) (l1 l2 : List Char),
      process_chars st (l1 ++ l2) =
        ((process_chars (process_chars st l1).1 l2).1,
          (process_chars st l1).2 ++
            (process_chars (process_chars st l1).1 l2).2)) :=
  ⟨fun st n => underscore_run n st, fun st l1 l2 => process_chars_append l1 l2 st⟩

/-- Claim C4 (counterexample): for the source path
`my_crate::some_mod::SomethingElse`, the emitted invocation does not target
the slot qualified by the full namespace prefix `my_crate::some_mod` that the
claim requires: the code keeps only the first path segment. -/
theorem c4_full_prefix_not_used :
    import_tokens_internal ⟨"tokens", ["my_crate", "some_mod", "SomethingElse"]⟩ ≠
      render_path ["my_crate", "some_mod", "__export_tokens_tt_something_else"] ++
      [Tok.sym "!", Tok.sym "\x7b", Tok.id "tokens", Tok.sym ","] ++
      render_path (private_path_model "import_tokens_inner") ++ [Tok.sym "\x7d"] := by
  decide

/-- Claim C4 (amended): for every source path with at least one prefix
segment, both `import_tokens_internal` and `forward_tokens_internal` resolve
the final segment to the registry-slot identifier and qualify it with the
FIRST segment of the source path only (the crate segment), discarding any
intermediate segments; the continuation target used by the import operation
is the built-in inner-import continuation path. -/
theorem c4_crate_segment_resolution :
    ∀ (p1 : String) (ps : List String) (name tv : String)
      (tgt : List String) (mm : Option (List String)) (e : Option String),
    resolve_slot_path ((p1 :: ps) ++ [name]) =
      [p1, export_tokens_slot_ident name] ∧
    import_tokens_internal ⟨tv, (p1 :: ps) ++ [name]⟩ =
      render_path [p1, export_tokens_slot_ident name] ++
      [Tok.sym "!", Tok.sym "\x7b", Tok.id tv, Tok.sym ","] ++
      render_path (private_path_model "import_tokens_inner") ++ [Tok.sym "\x7d"] ∧
    forward_tokens_internal ⟨(p1 :: ps) ++ [name], tgt, mm, e⟩ =
      render_path [p1, export_tokens_slot_ident name] ++
      [Tok.sym "!", Tok.sym "\x7b"] ++ render_path tgt ++ [Tok.sym ","] ++
      render_path ((mm.getD mm_root_model) ++ ["__private", "forward_tokens_inner"]) ++
      (match e with
       | some x => [Tok.sym ",", Tok.lit x, Tok.sym "\x7d"]
       | none => [Tok.sym "\x7d"]) := by
  intro p1 ps name tv tgt mm e
  have hres := resolve_slot_path_crate_qualified p1 ps name
  have hres' : resolve_slot_path (p1 :: (ps ++ [name])) =
      [p1, export_tokens_slot_ident name] := hres
  refine ⟨hres, ?_, ?_⟩
  · simp [import_tokens_internal, hres']
  · cases e <;> simp [forward_tokens_internal, hres']

/-- Claim C5: `export_tokens_internal` errors exactly when the item has no
intrinsic identifier and the attribute tokens are empty, or when non-empty
attribute tokens fail to parse as a single bare identifier; on success the
chosen name is the parsed override whenever one is supplied and the intrinsic
name exactly when the attribute tokens are empty, and the emitted slot is
named by prepending `__export_tokens_tt_` to the snake-cased chosen name. -/
theorem c5_export_tokens_error_characterization :
    ∀ (attr : List Tok) (item : RustItem) (emit : Bool),
    (exc_is_err (export_tokens_internal attr item emit) = true ↔
      ((item_ident item = none ∧ attr = []) ∨
        (attr ≠ [] ∧ parse_ident_tok attr = none))) ∧
    (∀ o : String, parse_ident_tok attr = some o →
      export_tokens_internal attr item emit =
        Except.ok ⟨"__export_tokens_tt_" ++ String.mk (to_snake_case o.data), emit⟩) ∧
    (attr = [] → ∀ i : String, item_ident item = some i →
      export_tokens_internal attr item emit =
        Except.ok ⟨"__export_tokens_tt_" ++ String.mk (to_snake_case i.data), emit⟩) := by
  intro attr item emit
  refine ⟨?_, ?_, ?_⟩
  · cases hid : item_ident item with
    | none =>
      cases hp : parse_ident_tok attr with
      | none =>
        by_cases ha : attr = []
        · subst ha
          simp [export_tokens_internal, hid, exc_is_err, parse_ident_tok]
        · simp [export_tokens_internal, hid, hp, exc_is_err, ha]
      | some o =>
        have ha : attr = [Tok.id o] := parse_ident_tok_eq_some.mp hp
        subst ha
        simp [export_tokens_internal, hid, exc_is_err, parse_ident_tok]
    | some i =>
      cases hp : parse_ident_tok attr with
      | none =>
        by_cases ha : attr = []
        · subst ha
          simp [export_tokens_internal, hid, exc_is_err, parse_ident_tok]
        · simp [export_tokens_internal, hid, hp, exc_is_err, ha]
      | some o =>
        have ha : attr = [Tok.id o] := parse_ident_tok_eq_some.mp hp
        subst ha
        simp [export_tokens_internal, hid, exc_is_err, parse_ident_tok]
  · intro o hp
    have ha : attr = [Tok.id o] := parse_ident_tok_eq_some.mp hp
    subst ha
    cases hid : item_ident item <;>
      simp [export_tokens_internal, hid, parse_ident_tok, export_tokens_slot_ident]
  · intro ha i hi
    subst ha
    simp [export_tokens_internal, hi, export_tokens_slot_ident]

/-- Witness for claim C5: an impl block (no intrinsic name) exported with the
override identifier `SomeName` succeeds and the slot uses the snake-cased
override. -/
theorem c5_export_tokens_witness :
    export_tokens_internal [Tok.id "SomeName"] RustItem.iImpl true =
      Except.ok ⟨"__export_tokens_tt_" ++ String.mk (to_snake_case "SomeName".data), true⟩ :=
  (c5_export_tokens_error_characterization [Tok.id "SomeName"] RustItem.iImpl true).2.1
    "SomeName" rfl

/-- Claim C6 (code bug, evaluated at the failing input): a public attribute
proc-macro definition that already carries `#[with_custom_parsing(FirstType)]`
(next to the required `#[import_tokens_attr]`) is ACCEPTED by
`with_custom_parsing_internal`, which appends a second
`with_custom_parsing` attribute instead of erroring: the duplicate guard
compares attribute names against the string "with_custom_parsing_internal",
which no user attribute path ever ends in. -/
theorem c6_duplicate_custom_parsing_accepted :
    with_custom_parsing_internal (some ["MyCustomType"])
        ⟨[⟨["import_tokens_attr"], none⟩,
          ⟨["with_custom_parsing"], some ["FirstType"]⟩]⟩
        "import_tokens_attr" =
      Except.ok ⟨[⟨["import_tokens_attr"], none⟩,
        ⟨["with_custom_parsing"], some ["FirstType"]⟩,
        ⟨["with_custom_parsing"], some ["MyCustomType"]⟩]⟩ := by
  rfl

/-- Claim C7 (counterexample): on the input of two spaces followed by `a`,
the leading whitespace run is not exempt: the first space is emitted
verbatim and the second space contributes an underscore, so the output is
space underscore `a` even though the input contains no underscore at all. -/
theorem c7_leading_whitespace_emits_underscore :
    to_snake_case "  a".data = " _a".data ∧
    '_' ∈ to_snake_case "  a".data := by
  decide

/-- Claim C7 (amended): a run of `n` whitespace characters behaves as
follows. If a kept character has already been processed (`first = false`),
the run contributes exactly one underscore when the previous kept character
was not an underscore or whitespace (`prevWs = false`) and nothing when it
was (`prevWs = true`). While still in start mode (`first = true`, which
covers the very start of the string and survives leading underscores and
dropped characters), the first whitespace character of the run is emitted
verbatim and the remainder of the run contributes exactly one underscore
when the run has length at least two. -/
theorem c7_whitespace_run_contribution :
    ∀ (st : SnakeState) (c : Char) (n : Nat),
    rust_is_whitespace c = true → 1 ≤ n →
    ((st.first = false → st.prevWs = false →
        process_chars st (List.replicate n c) =
          (⟨st.prevLower, true, false⟩, ['_'])) ∧
     (st.first = false → st.prevWs = true →
        process_chars st (List.replicate n c) =
          (⟨st.prevLower, true, false⟩, [])) ∧
     (st.first = true →
        process_chars st (List.replicate n c) =
          ((if n = 1 then ⟨false, false, false⟩ else ⟨false, true, false⟩ :
              SnakeState),
            c :: (if n = 1 then [] else ['_'])))) := by
  intro st c n hws hn
  obtain ⟨pl, pw, fi⟩ := st
  obtain ⟨k, rfl⟩ : ∃ k, n = k + 1 := ⟨n - 1, by omega⟩
  refine ⟨?_, ?_, ?_⟩
  · intro hf hpw
    simp only at hf hpw
    subst hf
    subst hpw
    exact ws_run_from_emitted hws pl k
  · intro hf hpw
    simp only at hf hpw
    subst hf
    subst hpw
    exact ws_run_idle hws pl (k + 1)
  · intro hf
    simp only at hf
    subst hf
    cases k with
    | zero =>
      simp [process_chars, snake_step_ws_first hws]
    | succ j =>
      have h1 : List.replicate (j + 1 + 1) c = c :: List.replicate (j + 1) c := rfl
      rw [h1, process_chars_cons]
      simp only [snake_step_ws_first hws pl pw]
      rw [ws_run_from_emitted hws false j]
      have hne : j + 1 + 1 ≠ 1 := by omega
      simp [hne]

/-- Witness for claim C7: from the state reached after a kept alphanumeric
character, a run of two spaces contributes exactly one underscore. -/
theorem c7_whitespace_run_witness :
    process_chars ⟨true, false, false⟩ (List.replicate 2 ' ') =
      (⟨true, true, false⟩, ['_']) :=
  (c7_whitespace_run_contribution ⟨true, false, false⟩ ' ' 2 (by decide)
    (by decide)).1 rfl rfl

/-- Claim C8: the five concrete normalizer equations hold: camel case is
snake cased, an already snake-cased name is unchanged, leading and trailing
underscore runs are preserved, the empty string maps to itself, and
punctuation plus generic-parameter markers are stripped. -/
theorem c8_normalizer_examples :
    to_snake_case "ThisIsATriumph".data = "this_is_a_triumph".data ∧
    to_snake_case "huge_success".data = "huge_success".data ∧
    to_snake_case "__aperature_science__".data = "__aperature_science__".data ∧
    to_snake_case "".data = "".data ∧
    to_snake_case "WeDoWhatWeMustBecause!<We, Can>()".data =
      "we_do_what_we_must_because_we_can".data := by
  decide

/-- Claim C9: `forward_tokens_inner_internal` emits an invocation of the
continuation target whose argument tokens are the declaration followed by a
comma and the raw payload literal when the extra payload is present, and the
declaration alone when it is absent. -/
theorem c9_forward_inner_splice :
    ∀ (tp : List String) (item : List Tok) (e : String),
    forward_tokens_inner_internal tp item (some e) =
      render_path tp ++ [Tok.sym "!", Tok.sym "\x7b"] ++ item ++
        [Tok.sym ",", Tok.lit e] ++ [Tok.sym "\x7d"] ∧
    forward_tokens_inner_internal tp item none =
      render_path tp ++ [Tok.sym "!", Tok.sym "\x7b"] ++ item ++ [Tok.sym "\x7d"] := by
  intro tp item e
  constructor <;> simp [forward_tokens_inner_internal]

/-- Claim C10: every string containing no backslash and no occurrence of the
two-character delimiter `~~` passes through both `escape_extra` and
`unescape_extra` unchanged. -/
theorem c10_codec_identity_on_clean_strings :
    ∀ s : List Char, '\\' ∉ s → has_sub ['~', '~'] s = false →
      escape_extra s = s ∧ unescape_extra s = s := by
  intro s hbs htl
  have h1 : has_sub ['\\'] s = false := has_sub_cons_of_not_mem '\\' [] s hbs
  have h2 : has_sub ['\\', '\\'] s = false :=
    has_sub_cons_of_not_mem '\\' ['\\'] s hbs
  have h3 : has_sub ['\\', '~', '\\', '~'] s = false :=
    has_sub_cons_of_not_mem '\\' ['~', '\\', '~'] s hbs
  constructor
  · simp only [escape_extra]
    rw [rust_replace_no_sub ['\\'] ['\\', '\\'] s h1,
      rust_replace_no_sub ['~', '~'] ['\\', '~', '\\', '~'] s htl]
  · simp only [unescape_extra]
    rw [rust_replace_no_sub ['\\', '\\'] ['\\'] s h2,
      rust_replace_no_sub ['\\', '~', '\\', '~'] ['~', '~'] s h3]

/-- Witness for claim C10: a string containing a single (non-doubled) tilde
and no backslash passes through both codec directions unchanged. -/
theorem c10_codec_identity_witness :
    escape_extra "abc~def".data = "abc~def".data ∧
    unescape_extra "abc~def".data = "abc~def".data :=
  c10_codec_identity_on_clean_strings ("abc~def".data) (by decide) (by decide)
